import Mathlib

/-!
Verification development for the encrypted-identity code-generation and
access-governance core of the hiqma-api repository.

The definitions below are a shallow embedding of the TypeScript sources:
  * `src/security/security.service.ts`  (SecurityService)
  * `src/security/access-control.service.ts`  (AccessControlService)
  * `src/students/students.service.ts`  (StudentsService)
  * the EdgeHubs/Devices service (generateUniqueDeviceCode)

JavaScript strings are modelled as `String` where only equality is needed
(access control) and as `List Char` where character-level surgery is needed
(tokens and generated codes).  Optional values are `Option`; JS truthiness
of an optional string is modelled explicitly (`none` and the empty string
are falsy).  Randomness and the current clock are passed as explicit inputs.
Throwing code is modelled with `Except`.
-/

namespace Hiqma

/-- JS truthiness of an optional string: `undefined` and `""` are falsy. -/
def strTruthy : Option String → Bool
  | none => false
  | some s => s ≠ ""

/-! ## AccessControlService (access-control.service.ts) -/

/-- `AccessContext` from access-control.service.ts.  `userType` is one of
`"admin" | "system" | "api" | "anonymous"`; kept as `String` as in the
source, where rule matching is by string comparison. -/
structure AccessContext where
  userId : Option String := none
  userType : String
  hubId : Option String := none
  ipAddress : Option String := none
  userAgent : Option String := none
  permissions : Option (List String) := none
deriving DecidableEq, Repr

/-- `AccessRule` from access-control.service.ts.  The optional boolean
fields `requiresHubAccess` / `sensitiveData` are modelled as `Bool`
(absent = `undefined` is falsy = `false`). -/
structure AccessRule where
  resource : String
  action : String
  requiredPermissions : List String
  allowedUserTypes : List String
  requiresHubAccess : Bool := false
  sensitiveData : Bool := false
  complianceRequired : Option (List String) := none
deriving DecidableEq, Repr

/-- Result shape of `checkAccess`. -/
structure AccessCheckResult where
  allowed : Bool
  reason : Option String := none
  complianceFlags : Option (List String) := none
deriving DecidableEq, Repr

/-- The static `accessRules` table, transcribed rule by rule from
access-control.service.ts. -/
def accessRules : List AccessRule := [
  { resource := "student", action := "view",
    requiredPermissions := ["student:read"],
    allowedUserTypes := ["admin", "system"],
    requiresHubAccess := true, sensitiveData := true,
    complianceRequired := some ["COPPA", "GDPR"] },
  { resource := "student", action := "create",
    requiredPermissions := ["student:write"],
    allowedUserTypes := ["admin", "system"],
    requiresHubAccess := true, sensitiveData := true,
    complianceRequired := some ["COPPA", "GDPR"] },
  { resource := "student", action := "update",
    requiredPermissions := ["student:write"],
    allowedUserTypes := ["admin", "system"],
    requiresHubAccess := true, sensitiveData := true,
    complianceRequired := some ["COPPA", "GDPR"] },
  { resource := "student", action := "delete",
    requiredPermissions := ["student:delete"],
    allowedUserTypes := ["admin"],
    requiresHubAccess := true, sensitiveData := true,
    complianceRequired := some ["COPPA", "GDPR", "RIGHT_TO_BE_FORGOTTEN"] },
  { resource := "student", action := "export",
    requiredPermissions := ["student:export"],
    allowedUserTypes := ["admin"],
    requiresHubAccess := true, sensitiveData := true,
    complianceRequired := some ["GDPR", "DATA_PORTABILITY"] },
  { resource := "student", action := "authenticate",
    requiredPermissions := [],
    allowedUserTypes := ["system", "api", "anonymous"],
    requiresHubAccess := false, sensitiveData := false },
  { resource := "device", action := "view",
    requiredPermissions := ["device:read"],
    allowedUserTypes := ["admin", "system"],
    requiresHubAccess := true },
  { resource := "device", action := "create",
    requiredPermissions := ["device:write"],
    allowedUserTypes := ["admin", "system"],
    requiresHubAccess := true },
  { resource := "device", action := "update",
    requiredPermissions := ["device:write"],
    allowedUserTypes := ["admin", "system"],
    requiresHubAccess := true },
  { resource := "device", action := "delete",
    requiredPermissions := ["device:delete"],
    allowedUserTypes := ["admin"],
    requiresHubAccess := true },
  { resource := "device", action := "register",
    requiredPermissions := [],
    allowedUserTypes := ["system", "api", "anonymous"],
    requiresHubAccess := false },
  { resource := "device", action := "validate",
    requiredPermissions := [],
    allowedUserTypes := ["system", "api", "anonymous"],
    requiresHubAccess := false },
  { resource := "analytics", action := "view",
    requiredPermissions := ["analytics:read"],
    allowedUserTypes := ["admin", "system"],
    requiresHubAccess := true },
  { resource := "analytics", action := "collect",
    requiredPermissions := [],
    allowedUserTypes := ["system", "api"],
    requiresHubAccess := false },
  { resource := "analytics", action := "export",
    requiredPermissions := ["analytics:export"],
    allowedUserTypes := ["admin"],
    requiresHubAccess := true, sensitiveData := true,
    complianceRequired := some ["GDPR"] },
  { resource := "hub", action := "view",
    requiredPermissions := ["hub:read"],
    allowedUserTypes := ["admin", "system"],
    requiresHubAccess := true },
  { resource := "hub", action := "manage",
    requiredPermissions := ["hub:admin"],
    allowedUserTypes := ["admin"],
    requiresHubAccess := true },
  { resource := "audit", action := "view",
    requiredPermissions := ["audit:read"],
    allowedUserTypes := ["admin"],
    requiresHubAccess := false, sensitiveData := true }
]

/-- `this.accessRules.find(r => r.resource === resource && r.action === action)` -/
def findRule (resource action : String) : Option AccessRule :=
  accessRules.find? (fun r => r.resource == resource && r.action == action)

/-- The hub-access check and final allow, shared tail of `checkAccess`. -/
def checkAccessHub (ctx : AccessContext) (rule : AccessRule) : AccessCheckResult :=
  if rule.requiresHubAccess && !(strTruthy ctx.hubId) then
    { allowed := false, reason := some "Hub access required but no hub ID provided" }
  else
    { allowed := true, complianceFlags := rule.complianceRequired }

/-- Body of the `try` block of `checkAccess` (access-control.service.ts).
Every operation in the source body is total, so no `.error` is ever
produced; the result type records that the body runs under a catch. -/
def checkAccessBody (ctx : AccessContext) (resource action : String) :
    Except String AccessCheckResult :=
  match findRule resource action with
  | none => .ok { allowed := false, reason := some "No access rule defined" }
  | some rule =>
    if !(rule.allowedUserTypes.contains ctx.userType) then
      .ok { allowed := false,
            reason := some ("User type '" ++ ctx.userType ++ "' not allowed for "
                            ++ resource ++ ":" ++ action) }
    else
      match ctx.permissions with
      | some ps =>
        if rule.requiredPermissions.length > 0 &&
           !(rule.requiredPermissions.all (fun p => ps.contains p)) then
          .ok { allowed := false,
                reason := some ("Missing required permissions: "
                                ++ String.intercalate ", " rule.requiredPermissions) }
        else
          .ok (checkAccessHub ctx rule)
      | none => .ok (checkAccessHub ctx rule)

/-- The fail-closed result produced by the `catch` clause of `checkAccess`. -/
def accessCheckFailed : AccessCheckResult :=
  { allowed := false, reason := some "Access check failed" }

/-- `checkAccess`: the try/catch wrapper around `checkAccessBody`. -/
def checkAccess (ctx : AccessContext) (resource action : String) : AccessCheckResult :=
  match checkAccessBody ctx resource action with
  | .ok r => r
  | .error _ => accessCheckFailed

/-- Service-level error taxonomy (NestJS exception classes used by the
students service). -/
inductive SvcError where
  | badRequest (msg : String)
  | notFound (msg : String)
  | forbidden (msg : String)
deriving DecidableEq, Repr

/-- `enforceAccess`: throws `ForbiddenException(result.reason || 'Access denied')`
when denied, else returns `result.complianceFlags || []`. -/
def enforceAccess (ctx : AccessContext) (resource action : String) :
    Except SvcError (List String) :=
  let result := checkAccess ctx resource action
  if !result.allowed then
    .error (.forbidden (result.reason.getD "Access denied"))
  else
    .ok (result.complianceFlags.getD [])

/-- Result shape of `validateStudentAge`. -/
structure AgeValidation where
  compliant : Bool
  requiresParentalConsent : Bool
  warnings : List String
deriving DecidableEq, Repr

/-- `validateStudentAge(age?)` from access-control.service.ts.  The source
guard `if (!age)` is JS-falsy: it fires for `undefined` and also for `0`. -/
def validateStudentAge (age : Option Int) : AgeValidation :=
  match age with
  | none =>
    { compliant := false, requiresParentalConsent := true,
      warnings := ["Age not provided - cannot verify COPPA compliance"] }
  | some a =>
    if a = 0 then
      { compliant := false, requiresParentalConsent := true,
        warnings := ["Age not provided - cannot verify COPPA compliance"] }
    else if a < 3 then
      { compliant := false, requiresParentalConsent := true,
        warnings := ["Age below minimum expected range"] }
    else if a < 13 then
      { compliant := true, requiresParentalConsent := true,
        warnings := ["Student under 13 - COPPA parental consent required"] }
    else
      { compliant := true, requiresParentalConsent := false, warnings := [] }

/-! ### Data retention (`shouldRetainData`) -/

/-- A JavaScript `Date`, decomposed as its calendar year plus the position
within that year (opaque sub-year offset).  Comparing timestamps is the
lexicographic order on this decomposition, and
`d.setFullYear(d.getFullYear() + n)` adds `n` to the year component.
(The day-overflow of Feb 29 under `setFullYear` is not modelled.) -/
structure JSDate where
  year : Int
  sub : Nat
deriving DecidableEq, Repr

/-- Chronological strict order on dates (`<` on timestamps). -/
def dateLt (d1 d2 : JSDate) : Bool :=
  d1.year < d2.year || (d1.year == d2.year && d1.sub < d2.sub)

/-- `d.setFullYear(d.getFullYear() + n)` on a copy of `d`. -/
def addYears (n : Int) (d : JSDate) : JSDate :=
  { d with year := d.year + n }

/-- The `dataType` union `'student' | 'analytics' | 'audit'`. -/
inductive RetentionDataType where
  | student
  | analytics
  | audit
deriving DecidableEq, Repr

/-- Result shape of `shouldRetainData`. -/
structure RetentionDecision where
  retain : Bool
  reason : String
  action : Option String := none
deriving DecidableEq, Repr

/-- The static `getDataRetentionPolicy()` year values. -/
def retentionPolicyYears : RetentionDataType → Nat
  | .student => 3
  | .analytics => 2
  | .audit => 7

/-- `shouldRetainData(dataType, lastActivity, studentAge?)` from
access-control.service.ts, with `new Date()` passed explicitly as `now`.
The `studentAge && studentAge < 13` guard is JS-falsy on `0`. -/
def shouldRetainData (dataType : RetentionDataType) (lastActivity : JSDate)
    (studentAge : Option Int) (now : JSDate) : RetentionDecision :=
  let retentionYears := retentionPolicyYears dataType
  let additionalChecks : String :=
    match dataType with
    | .student =>
      match studentAge with
      | some a =>
        if a ≠ 0 ∧ a < 13 then
          " (COPPA compliance - parental consent may affect retention)"
        else ""
      | none => ""
    | .analytics => " (can be anonymized after retention period)"
    | .audit => " (compliance requirement)"
  let retentionDate := addYears retentionYears lastActivity
  if dateLt retentionDate now then
    { retain := false,
      reason := "Data older than " ++ toString retentionYears ++ " years"
                ++ additionalChecks,
      action := some (if dataType = .analytics then "anonymize" else "delete") }
  else
    { retain := true,
      reason := "Within " ++ toString retentionYears ++ " year retention period"
                ++ additionalChecks }

/-! ## Code generation (students.service.ts / devices service / security.service.ts) -/

/-- Codes are manipulated character by character; they are modelled as
`List Char`. -/
abbrev CharStr := List Char

/-- Default charset of `generateSecureRandom` (security.service.ts):
`'ABCDEFGHJKLMNPQRSTUVWXYZ23456789'` — note that it contains `L`. -/
def defaultCharset : CharStr := "ABCDEFGHJKLMNPQRSTUVWXYZ23456789".toList

/-- Charset of the students-service `generateStudentCode`:
`'ABCDEFGHJKMNPQRSTUVWXYZ23456789'` — no `L`. -/
def studentChars : CharStr := "ABCDEFGHJKMNPQRSTUVWXYZ23456789".toList

/-- Letter set used to replace a leading digit in a student code. -/
def studentLetterChars : CharStr := "ABCDEFGHJKMNPQRSTUVWXYZ".toList

/-- `generateSecureRandom(length, charset?)`: character `i` is
`chars[randomBytes[i] % chars.length]`.  The random byte stream is an
explicit input (each entry reduced mod 256 as a byte). -/
def generateSecureRandom (length : Nat) (bytes : Nat → Nat) (chars : CharStr) : CharStr :=
  (List.range length).map (fun i => chars.getD (bytes i % 256 % chars.length) 'A')

/-- `generateDeviceCode()` (security.service.ts): length is
`6 + Math.floor(Math.random() * 3)`; the length draw (0, 1 or 2) comes in
as `lenSel % 3`. -/
def generateDeviceCode (lenSel : Nat) (bytes : Nat → Nat) : CharStr :=
  generateSecureRandom (6 + lenSel % 3) bytes defaultCharset

/-- `generateStudentCode(length = 4)` (students.service.ts): throws unless
`3 ≤ length ≤ 6`; draws each character as `chars[crypto.randomInt(0, 31)]`
(`rnd i % 31` models the bounded draw) and replaces a leading digit by
`letterChars[crypto.randomInt(0, 23)]` (modelled by `rnd length`). -/
def generateStudentCode (length : Nat) (rnd : Nat → Nat) : Except String CharStr :=
  if length < 3 ∨ length > 6 then
    .error "Student code length must be between 3 and 6 characters"
  else
    match (List.range length).map
        (fun i => studentChars.getD (rnd i % studentChars.length) 'A') with
    | [] => .ok []
    | c :: rest =>
      if '0' ≤ c ∧ c ≤ '9' then
        .ok (studentLetterChars.getD (rnd length % studentLetterChars.length) 'A' :: rest)
      else
        .ok (c :: rest)

/-- Error message thrown when the student-code retry budget is exhausted. -/
def studentExhaustedMsg : String :=
  "Unable to generate unique student code after 15 attempts"

/-- Error message thrown when the device-code retry budget is exhausted. -/
def deviceExhaustedMsg : String :=
  "Unable to generate unique device code after 15 attempts"

/-- Loop of `generateUniqueStudentCode` (students.service.ts).  `fuel` is
`maxAttempts - attempts`, the number of remaining `while` iterations;
`existing` is the storage existence check on `studentCode`; `rnd attempts`
is the fresh randomness drawn inside iteration `attempts`.  The retry
delay (`setTimeout`) has no observable effect and is not modelled. -/
def genUniqueStudentAux (existing : CharStr → Bool) (rnd : Nat → Nat → Nat) :
    Nat → Nat → Nat → Except String CharStr
  | 0, _, _ => .error studentExhaustedMsg
  | fuel + 1, attempts, codeLength =>
    match generateStudentCode codeLength (rnd attempts) with
    | .error e => .error e
    | .ok code =>
      if existing code then
        let attempts' := attempts + 1
        let codeLength' :=
          if attempts' = 5 then 5
          else if attempts' = 10 then 6
          else codeLength
        genUniqueStudentAux existing rnd fuel attempts' codeLength'
      else
        .ok code

/-- `generateUniqueStudentCode`: `maxAttempts = 15`, starting length 4. -/
def generateUniqueStudentCode (existing : CharStr → Bool) (rnd : Nat → Nat → Nat) :
    Except String CharStr :=
  genUniqueStudentAux existing rnd 15 0 4

/-- The candidate generated inside iteration `attempts` of
`generateUniqueDeviceCode`: the source calls `this.generateDeviceCode()`
with no argument, so the candidate never depends on the loop's
`codeLength` variable. -/
def deviceCandidateAt (lenSel : Nat → Nat) (bytes : Nat → Nat → Nat)
    (attempts : Nat) : CharStr :=
  generateDeviceCode (lenSel attempts) (bytes attempts)

/-- Loop of `generateUniqueDeviceCode` (devices service).  The local
`codeLength` variable is transcribed faithfully: it is reassigned after 5
and 10 attempts but never read by the candidate generator. -/
def genUniqueDeviceAux (existing : CharStr → Bool) (lenSel : Nat → Nat)
    (bytes : Nat → Nat → Nat) :
    Nat → Nat → Nat → Except String CharStr
  | 0, _, _ => .error deviceExhaustedMsg
  | fuel + 1, attempts, codeLength =>
    let code := deviceCandidateAt lenSel bytes attempts
    if existing code then
      let attempts' := attempts + 1
      let codeLength' :=
        if attempts' = 5 then 7
        else if attempts' = 10 then 8
        else codeLength
      genUniqueDeviceAux existing lenSel bytes fuel attempts' codeLength'
    else
      .ok code

/-- `generateUniqueDeviceCode`: `maxAttempts = 15`, starting length 6. -/
def generateUniqueDeviceCode (existing : CharStr → Bool) (lenSel : Nat → Nat)
    (bytes : Nat → Nat → Nat) : Except String CharStr :=
  genUniqueDeviceAux existing lenSel bytes 15 0 6

/-- Character class of the spec's code-format regexes, `[A-HJ-NP-Z2-9]`
(written from the spec's words, for comparison with the source's
charsets). -/
def specRegexCharClass (c : Char) : Bool :=
  ('A' ≤ c && c ≤ 'H') || ('J' ≤ c && c ≤ 'N') || ('P' ≤ c && c ≤ 'Z') ||
  ('2' ≤ c && c ≤ '9')

/-- Letter class `[A-HJ-NP-Z]` of the spec's student-code regex (written
from the spec's words, for comparison with the source's charsets). -/
def specRegexLetterClass (c : Char) : Bool :=
  ('A' ≤ c && c ≤ 'H') || ('J' ≤ c && c ≤ 'N') || ('P' ≤ c && c ≤ 'Z')

/-! ## SecurityService encrypt/decrypt (security.service.ts)

The AES-256-GCM primitive (`crypto.createCipheriv` / `createDecipheriv`,
an external collaborator) is a parameter: a pair of functions from IV and
plaintext to ciphertext-plus-tag and back.  What the repository implements
— and what is verified here — is the wrapper: blank-input passthrough, the
`iv:authTag:ciphertext` hex token format, the 3-segment check, and the
collapse of every failure into the generic decryption error.  The per-call
random IV is an explicit input. -/

/-- JS whitespace as used by `String.prototype.trim` (the common cases). -/
def isJsSpace (c : Char) : Bool :=
  c = ' ' || c = '\t' || c = '\n' || c = '\r' ||
  c = Char.ofNat 11 || c = Char.ofNat 12

/-- `s.trim()`. -/
def jsTrim (s : CharStr) : CharStr :=
  ((s.dropWhile isJsSpace).reverse.dropWhile isJsSpace).reverse

/-- `!s || s.trim().length === 0` — the blank-input passthrough guard of
both `encrypt` and `decrypt`. -/
def jsBlank (s : CharStr) : Bool :=
  s.isEmpty || (jsTrim s).isEmpty

/-- The sixteen lowercase hex digits, as produced by
`Buffer.toString('hex')`. -/
def hexDigits : CharStr := "0123456789abcdef".toList

/-- Lowercase hex digit of a nibble. -/
def hexDig (n : Nat) : Char := hexDigits.getD n '0'

/-- `Buffer.toString('hex')`: two lowercase hex digits per byte. -/
def toHex (bs : List Nat) : CharStr :=
  bs.flatMap (fun b => [hexDig (b % 256 / 16), hexDig (b % 16)])

/-- Value of a hex digit as accepted by `Buffer.from(s, 'hex')`
(both cases accepted). -/
def hexVal? (c : Char) : Option Nat :=
  if '0' ≤ c ∧ c ≤ '9' then some (c.toNat - '0'.toNat)
  else if 'a' ≤ c ∧ c ≤ 'f' then some (c.toNat - 'a'.toNat + 10)
  else if 'A' ≤ c ∧ c ≤ 'F' then some (c.toNat - 'A'.toNat + 10)
  else none

/-- `Buffer.from(s, 'hex')`: parses complete pairs of hex digits and stops
at the first incomplete or invalid pair. -/
def fromHex : CharStr → List Nat
  | hi :: lo :: rest =>
    match hexVal? hi, hexVal? lo with
    | some x, some y => (16 * x + y) :: fromHex rest
    | _, _ => []
  | _ => []

/-- `s.split(':')`. -/
def splitCols : CharStr → List CharStr
  | [] => [[]]
  | c :: rest =>
    match splitCols rest with
    | [] => [[c]]
    | g :: gs => if c = ':' then [] :: g :: gs else (c :: g) :: gs

/-- The AEAD collaborator (`aes-256-gcm` with AAD `'student-data'`):
`enc iv plaintext = (ciphertextBytes, authTag)`, and
`dec iv authTag ciphertextBytes` returns the plaintext or `none` when
authentication fails. -/
structure GCMCipher where
  enc : List Nat → CharStr → List Nat × List Nat
  dec : List Nat → List Nat → List Nat → Option CharStr

/-- `encrypt(plaintext)` (security.service.ts): blank passthrough, then
`iv.toString('hex') + ':' + tag.toString('hex') + ':' + encrypted`. -/
def encrypt (c : GCMCipher) (iv : List Nat) (plaintext : CharStr) : CharStr :=
  if jsBlank plaintext then plaintext
  else
    let ct := (c.enc iv plaintext).1
    let tag := (c.enc iv plaintext).2
    toHex iv ++ ':' :: (toHex tag ++ ':' :: toHex ct)

/-- The generic error surfaced by the `catch` clause of `decrypt`. -/
def failDecryptMsg : String := "Failed to decrypt data"

/-- `decrypt(encryptedData)` (security.service.ts): blank passthrough,
split on `':'`, require exactly 3 segments, hex-decode, authenticate;
every failure is collapsed to `Failed to decrypt data`. -/
def decrypt (c : GCMCipher) (token : CharStr) : Except String CharStr :=
  if jsBlank token then .ok token
  else
    match splitCols token with
    | [p0, p1, p2] =>
      match c.dec (fromHex p0) (fromHex p1) (fromHex p2) with
      | some plain => .ok plain
      | none => .error failDecryptMsg
    | _ => .error failDecryptMsg

/-- Toy AEAD instance for exercising the wrapper on concrete inputs: the
ciphertext is the plaintext's code points and the tag a fixed byte. -/
def toyCipher : GCMCipher where
  enc := fun _ p => (p.map Char.toNat, [255])
  dec := fun _ _ ct => some (ct.map Char.ofNat)

/-- Single-point AEAD instance: decryption succeeds on exactly one triple
(IV, tag, ciphertext) — perfect tamper detection, for exercising the
tamper theorem on a concrete token. -/
def pointCipher : GCMCipher where
  enc := fun _ _ => ([2], [1])
  dec := fun iv tag ct =>
    if iv = [0] ∧ tag = [1] ∧ ct = [2] then some ['A'] else none

/-! ## StudentsService (students.service.ts): create/update validation pipelines

The repository collaborators (hub lookup, student lookup, per-hub count,
unique-code generation, PII encryption, the saved record itself, audit
logging) are passed in as explicit inputs; the definitions transcribe the
ordered guard sequence of `createStudent` / `updateStudent`.  A thrown
NestJS exception is an `.error`; `.ok` is reached only at the point where
the source builds and saves the record, so an `.error` result implies no
record was created or modified. -/

/-- The age guard message of `createStudent` / `updateStudent`. -/
def ageRangeMsg : String := "Student age must be between 3 and 18"

/-- `createStudent(hubId, studentData, context)` validation pipeline
(students.service.ts).  `hubFound` abstracts
`edgeHubRepository.findOne({hubId})`, `existingCount` abstracts
`studentRepository.count({hubId})`, and `codeGen` abstracts the
`generateUniqueStudentCode` call (which can throw).  On success the
generated student code stands in for the created record. -/
def createStudent (ctx : AccessContext) (hubId : String) (hubFound : Bool)
    (age : Option Int) (existingCount : Nat) (codeGen : Except SvcError String) :
    Except SvcError String := do
  let ctxWithHub := { ctx with hubId := some hubId }
  let _ ← enforceAccess ctxWithHub "student" "create"
  if !hubFound then
    throw (.notFound "Hub not found")
  if let some a := age then
    if a < 3 ∨ a > 18 then
      throw (.badRequest ageRangeMsg)
  let coppaValidation := validateStudentAge age
  if !coppaValidation.compliant then
    throw (.badRequest ("COPPA compliance issue: "
                        ++ String.intercalate ", " coppaValidation.warnings))
  if existingCount ≥ 1000 then
    throw (.badRequest "Maximum student count per hub (1000) exceeded")
  let studentCode ← codeGen
  return studentCode

/-- `updateStudent(studentId, updateData, context)` validation pipeline
(students.service.ts).  `studentFound` abstracts the student lookup and
`studentHubId` the found record's `hubId`.  On success the list of updated
field names stands in for the saved record. -/
def updateStudent (ctx : AccessContext) (studentFound : Bool) (studentHubId : String)
    (age : Option Int) (updatedFields : List String) :
    Except SvcError (List String) := do
  if !studentFound then
    throw (.notFound "Student not found")
  let ctxWithHub := { ctx with hubId := some studentHubId }
  let _ ← enforceAccess ctxWithHub "student" "update"
  if let some a := age then
    if a < 3 ∨ a > 18 then
      throw (.badRequest ageRangeMsg)
  if age.isSome then
    let coppaValidation := validateStudentAge age
    if !coppaValidation.compliant then
      throw (.badRequest ("COPPA compliance issue: "
                          ++ String.intercalate ", " coppaValidation.warnings))
  return updatedFields

/-! ## Theorems -/

/-- C6: `validateStudentAge` boundaries — missing age is non-compliant
with consent required and a warning; age < 3 non-compliant; ages in
[3, 13) compliant with parental consent; ages ≥ 13 compliant without
consent; in particular 12 requires consent, 13 does not, and 2 is
non-compliant. -/
theorem validateStudentAge_coppa_boundaries :
    ((validateStudentAge none).compliant = false ∧
     (validateStudentAge none).requiresParentalConsent = true ∧
     (validateStudentAge none).warnings ≠ []) ∧
    (∀ a : Int, a < 3 → (validateStudentAge (some a)).compliant = false) ∧
    (∀ a : Int, 3 ≤ a → a < 13 →
      (validateStudentAge (some a)).compliant = true ∧
      (validateStudentAge (some a)).requiresParentalConsent = true) ∧
    (∀ a : Int, 13 ≤ a →
      (validateStudentAge (some a)).compliant = true ∧
      (validateStudentAge (some a)).requiresParentalConsent = false) ∧
    (validateStudentAge (some 12)).compliant = true ∧
    (validateStudentAge (some 12)).requiresParentalConsent = true ∧
    (validateStudentAge (some 13)).compliant = true ∧
    (validateStudentAge (some 13)).requiresParentalConsent = false ∧
    (validateStudentAge (some 2)).compliant = false := by
  refine ⟨⟨rfl, rfl, by decide⟩, ?_, ?_, ?_, by decide, by decide, by decide,
    by decide, by decide⟩
  · intro a ha
    simp only [validateStudentAge]
    split_ifs <;> first | rfl | (exfalso; omega)
  · intro a h3 h13
    simp only [validateStudentAge]
    split_ifs <;> first | exact ⟨rfl, rfl⟩ | (exfalso; omega)
  · intro a h13
    simp only [validateStudentAge]
    split_ifs <;> first | exact ⟨rfl, rfl⟩ | (exfalso; omega)

/-- Witness for C6 at a concrete age. -/
theorem validateStudentAge_coppa_boundaries_witness :
    (validateStudentAge (some 5)).compliant = true ∧
    (validateStudentAge (some 5)).requiresParentalConsent = true :=
  validateStudentAge_coppa_boundaries.2.2.1 5 (by decide) (by decide)

/-- C8: `shouldRetainData` uses a cutoff of lastActivity plus 3 years for
student data, 2 for analytics and 7 for audit logs; once the current time
is strictly past the cutoff it returns retain=false with action
"anonymize" for analytics and "delete" otherwise, and retain=true
before that. -/
theorem shouldRetainData_retention_policy :
    retentionPolicyYears .student = 3 ∧
    retentionPolicyYears .analytics = 2 ∧
    retentionPolicyYears .audit = 7 ∧
    ∀ (dt : RetentionDataType) (lastActivity : JSDate) (age : Option Int)
      (now : JSDate),
      (dateLt (addYears (retentionPolicyYears dt) lastActivity) now = true →
        (shouldRetainData dt lastActivity age now).retain = false ∧
        (shouldRetainData dt lastActivity age now).action =
          some (if dt = .analytics then "anonymize" else "delete")) ∧
      (dateLt (addYears (retentionPolicyYears dt) lastActivity) now = false →
        (shouldRetainData dt lastActivity age now).retain = true ∧
        (shouldRetainData dt lastActivity age now).action = none) := by
  refine ⟨rfl, rfl, rfl, fun dt lastActivity age now => ⟨?_, ?_⟩⟩
  · intro h
    simp [shouldRetainData, h]
  · intro h
    simp [shouldRetainData, h]

/-- Witness for C8 at the spec's boundary scenario (3 years + 1 tick past
activity for student data ⇒ delete; 2 years ⇒ retain). -/
theorem shouldRetainData_retention_policy_witness :
    ((shouldRetainData .student ⟨2020, 0⟩ none ⟨2023, 1⟩).retain = false ∧
     (shouldRetainData .student ⟨2020, 0⟩ none ⟨2023, 1⟩).action =
       some (if RetentionDataType.student = .analytics then "anonymize" else "delete")) ∧
    ((shouldRetainData .student ⟨2020, 0⟩ none ⟨2022, 0⟩).retain = true ∧
     (shouldRetainData .student ⟨2020, 0⟩ none ⟨2022, 0⟩).action = none) :=
  ⟨(shouldRetainData_retention_policy.2.2.2 .student ⟨2020, 0⟩ none ⟨2023, 1⟩).1
     (by decide),
   (shouldRetainData_retention_policy.2.2.2 .student ⟨2020, 0⟩ none ⟨2022, 0⟩).2
     (by decide)⟩

/-- C10: `checkAccess` always returns a decision object: the body's result
when the try-block succeeds, and the fail-closed
`{allowed: false, reason: "Access check failed"}` of the catch clause
otherwise; no exception propagates to the caller. -/
theorem checkAccess_total_fail_closed :
    ∀ (ctx : AccessContext) (resource action : String),
      (∃ r, checkAccessBody ctx resource action = .ok r ∧
            checkAccess ctx resource action = r) ∨
      checkAccess ctx resource action = accessCheckFailed := by
  intro ctx resource action
  cases h : checkAccessBody ctx resource action with
  | ok r => exact Or.inl ⟨r, rfl, by simp [checkAccess, h]⟩
  | error e => exact Or.inr (by simp [checkAccess, h])

/-- The device-code retry loop ignores the `codeLength` variable entirely:
its result is the same whatever value that variable holds. -/
theorem genUniqueDeviceAux_codeLength_irrelevant :
    ∀ (fuel : Nat) (existing : CharStr → Bool) (lenSel : Nat → Nat)
      (bytes : Nat → Nat → Nat) (attempts cl cl' : Nat),
      genUniqueDeviceAux existing lenSel bytes fuel attempts cl =
      genUniqueDeviceAux existing lenSel bytes fuel attempts cl' := by
  intro fuel
  induction fuel with
  | zero => intros; rfl
  | succ n ih =>
    intro existing lenSel bytes attempts cl cl'
    simp only [genUniqueDeviceAux]
    cases h : existing (deviceCandidateAt lenSel bytes attempts) with
    | true => simp only [h, if_true]; exact ih ..
    | false => simp [h]

/-- C5: in `generateUniqueDeviceCode` the `codeLength` variable is set to 7
after 5 attempts and 8 after 10, but `generateDeviceCode()` takes no
argument and never reads it: with a random length-draw of 0 every
candidate — including those of attempts 5 and 10 — has length 6, and the
loop's outcome is independent of the `codeLength` value. -/
theorem deviceCodeLength_growth_is_dead :
    (deviceCandidateAt (fun _ => 0) (fun _ _ => 0) 5).length = 6 ∧
    (deviceCandidateAt (fun _ => 0) (fun _ _ => 0) 10).length = 6 ∧
    generateUniqueDeviceCode (fun _ => true) (fun _ => 0) (fun _ _ => 0) =
      .error deviceExhaustedMsg ∧
    (∀ (existing : CharStr → Bool) (lenSel : Nat → Nat) (bytes : Nat → Nat → Nat)
       (fuel attempts cl cl' : Nat),
      genUniqueDeviceAux existing lenSel bytes fuel attempts cl =
      genUniqueDeviceAux existing lenSel bytes fuel attempts cl') :=
  ⟨by decide, by decide, by rfl,
   fun existing lenSel bytes fuel attempts cl cl' =>
     genUniqueDeviceAux_codeLength_irrelevant fuel existing lenSel bytes attempts cl cl'⟩

/-- Every character of `generateSecureRandom` output is drawn from the
charset. -/
theorem mem_generateSecureRandom {ch : Char} {len : Nat} {bytes : Nat → Nat}
    {chars : CharStr} (hne : chars ≠ [])
    (h : ch ∈ generateSecureRandom len bytes chars) : ch ∈ chars := by
  rcases List.mem_map.1 h with ⟨i, _, rfl⟩
  have hlt : bytes i % 256 % chars.length < chars.length :=
    Nat.mod_lt _ (List.length_pos.2 hne)
  rw [List.getD_eq_getElem chars 'A' hlt]
  exact List.getElem_mem hlt

/-- Length of `generateSecureRandom` output. -/
theorem generateSecureRandom_length (len : Nat) (bytes : Nat → Nat)
    (chars : CharStr) : (generateSecureRandom len bytes chars).length = len := by
  simp [generateSecureRandom]

/-- Shape of a successful `generateStudentCode`: the requested length is
kept, characters come from the restricted student charset, and the first
character is never a digit (a leading digit is replaced by a letter from
`studentLetterChars`). -/
theorem generateStudentCode_ok_shape (len : Nat) (rnd : Nat → Nat) (code : CharStr)
    (h : generateStudentCode len rnd = .ok code) :
    3 ≤ len ∧ len ≤ 6 ∧ code.length = len ∧ (∀ ch ∈ code, ch ∈ studentChars) ∧
    ∀ c0 rest, code = c0 :: rest →
      c0 ∈ studentLetterChars ∨ (c0 ∈ studentChars ∧ ¬('0' ≤ c0 ∧ c0 ≤ '9')) := by
  by_cases hlen : len < 3 ∨ len > 6
  · simp [generateStudentCode, hlen] at h
  · push_neg at hlen
    have h3 : 3 ≤ len := hlen.1
    have h6 : len ≤ 6 := hlen.2
    refine ⟨h3, h6, ?_⟩
    have hmem : ∀ ch ∈ (List.range len).map
        (fun i => studentChars.getD (rnd i % studentChars.length) 'A'),
        ch ∈ studentChars := by
      intro ch hch
      rcases List.mem_map.1 hch with ⟨i, _, rfl⟩
      have hlt : rnd i % studentChars.length < studentChars.length :=
        Nat.mod_lt _ (by decide)
      rw [List.getD_eq_getElem studentChars 'A' hlt]
      exact List.getElem_mem hlt
    have hlsub : ∀ ch ∈ studentLetterChars, ch ∈ studentChars := by
      intro ch hch
      have H : studentLetterChars.all (fun ch => decide (ch ∈ studentChars)) = true := by
        decide
      exact of_decide_eq_true (List.all_eq_true.1 H ch hch)
    simp only [generateStudentCode] at h
    rw [if_neg (by omega)] at h
    split at h
    case _ heq =>
      have : len = 0 := by simpa using congrArg List.length heq
      omega
    case _ c rest heq =>
      have hlenres : len = rest.length + 1 := by
        simpa using congrArg List.length heq
      split_ifs at h with hd
      · injection h with hcode
        have hlt : rnd len % studentLetterChars.length < studentLetterChars.length :=
          Nat.mod_lt _ (by decide)
        have hhead : studentLetterChars.getD (rnd len % studentLetterChars.length) 'A'
            ∈ studentLetterChars := by
          rw [List.getD_eq_getElem studentLetterChars 'A' hlt]
          exact List.getElem_mem hlt
        refine ⟨?_, ?_, ?_⟩
        · rw [← hcode]; simpa using hlenres.symm
        · intro ch hch
          rw [← hcode] at hch
          rcases List.mem_cons.1 hch with rfl | hch'
          · exact hlsub _ hhead
          · exact hmem ch (by rw [heq]; exact List.mem_cons_of_mem _ hch')
        · intro c0 rest' hc0
          rw [← hcode] at hc0
          exact Or.inl ((List.cons_eq_cons.1 hc0).1 ▸ hhead)
      · injection h with hcode
        refine ⟨?_, ?_, ?_⟩
        · rw [← hcode]; simpa using hlenres.symm
        · intro ch hch
          rw [← hcode] at hch
          exact hmem ch (by rw [heq]; exact hch)
        · intro c0 rest' hc0
          rw [← hcode] at hc0
          have hc : c0 = c := ((List.cons_eq_cons.1 hc0).1).symm
          refine Or.inr ⟨?_, ?_⟩
          · rw [hc]; exact hmem c (by rw [heq]; exact List.mem_cons_self _ _)
          · rw [hc]; exact hd

/-- `generateStudentCode` succeeds whenever the requested length is in
bounds. -/
theorem generateStudentCode_isOk (len : Nat) (rnd : Nat → Nat)
    (h3 : 3 ≤ len) (h6 : len ≤ 6) :
    ∃ code, generateStudentCode len rnd = .ok code := by
  simp only [generateStudentCode]
  rw [if_neg (by omega)]
  split
  · exact ⟨[], rfl⟩
  · split_ifs <;> exact ⟨_, rfl⟩

/-- Loop invariant of `generateUniqueStudentCode`: starting from an
in-bounds length, every iteration either returns a code absent from
storage or the loop ends in the exhaustion error. -/
theorem genUniqueStudentAux_spec (existing : CharStr → Bool) (rnd : Nat → Nat → Nat) :
    ∀ (fuel attempts codeLength : Nat), 3 ≤ codeLength → codeLength ≤ 6 →
      (∃ code, genUniqueStudentAux existing rnd fuel attempts codeLength = .ok code ∧
               existing code = false) ∨
      genUniqueStudentAux existing rnd fuel attempts codeLength =
        .error studentExhaustedMsg := by
  intro fuel
  induction fuel with
  | zero => intros; exact Or.inr rfl
  | succ n ih =>
    intro attempts codeLength h3 h6
    obtain ⟨code, hcode⟩ := generateStudentCode_isOk codeLength (rnd attempts) h3 h6
    simp only [genUniqueStudentAux, hcode]
    cases hex : existing code with
    | false => exact Or.inl ⟨code, by simp [hex], hex⟩
    | true =>
      simp only [hex, if_true]
      apply ih
      · split_ifs <;> omega
      · split_ifs <;> omega

/-- Device-side analogue of `genUniqueStudentAux_spec`. -/
theorem genUniqueDeviceAux_spec (existing : CharStr → Bool) (lenSel : Nat → Nat)
    (bytes : Nat → Nat → Nat) :
    ∀ (fuel attempts codeLength : Nat),
      (∃ code, genUniqueDeviceAux existing lenSel bytes fuel attempts codeLength = .ok code ∧
               existing code = false) ∨
      genUniqueDeviceAux existing lenSel bytes fuel attempts codeLength =
        .error deviceExhaustedMsg := by
  intro fuel
  induction fuel with
  | zero => intros; exact Or.inr rfl
  | succ n ih =>
    intro attempts codeLength
    simp only [genUniqueDeviceAux]
    cases hex : existing (deviceCandidateAt lenSel bytes attempts) with
    | false => exact Or.inl ⟨deviceCandidateAt lenSel bytes attempts, by simp [hex], hex⟩
    | true =>
      simp only [hex, if_true]
      apply ih

/-- C3: pre-populated storage never receives a duplicate — both unique-code
generators either return a code whose existence check is negative, or fail
with the code-generation-exhausted error after the 15-attempt budget. -/
theorem unique_code_fresh_or_exhausted :
    ∀ (existing : CharStr → Bool) (rnd : Nat → Nat → Nat) (lenSel : Nat → Nat)
      (bytes : Nat → Nat → Nat),
      ((∃ code, generateUniqueStudentCode existing rnd = .ok code ∧
                existing code = false) ∨
        generateUniqueStudentCode existing rnd = .error studentExhaustedMsg) ∧
      ((∃ code, generateUniqueDeviceCode existing lenSel bytes = .ok code ∧
                existing code = false) ∨
        generateUniqueDeviceCode existing lenSel bytes = .error deviceExhaustedMsg) :=
  fun existing rnd lenSel bytes =>
    ⟨genUniqueStudentAux_spec existing rnd 15 0 4 (by omega) (by omega),
     genUniqueDeviceAux_spec existing lenSel bytes 15 0 6⟩

/-- C4 counterexample: a device code produced by `generateDeviceCode` (all
random bytes ≡ 10) is `LLLLLL`, whose characters are not drawn from the
claimed `I,L,O,0,1`-free alphabet (`studentChars`). -/
theorem device_code_charset_includes_L :
    ¬ (∀ ch ∈ generateDeviceCode 0 (fun _ => 10), ch ∈ studentChars) := by
  decide

/-- C4 (amended): device codes are 6–8 characters over the source's
default charset `ABCDEFGHJKLMNPQRSTUVWXYZ23456789` (which includes `L`),
every such character matching the regex class `[A-HJ-NP-Z2-9]`; student
codes are 3–6 characters over the `L`-free student charset and start with
a letter of `[A-HJ-NP-Z]`. -/
theorem code_format_regexes :
    (∀ (lenSel : Nat) (bytes : Nat → Nat),
      6 ≤ (generateDeviceCode lenSel bytes).length ∧
      (generateDeviceCode lenSel bytes).length ≤ 8 ∧
      ∀ ch ∈ generateDeviceCode lenSel bytes,
        ch ∈ defaultCharset ∧ specRegexCharClass ch = true) ∧
    (∀ ch ∈ studentChars, specRegexCharClass ch = true) ∧
    (∀ (len : Nat) (rnd : Nat → Nat) (code : CharStr),
      generateStudentCode len rnd = .ok code →
      3 ≤ code.length ∧ code.length ≤ 6 ∧
      (∀ ch ∈ code, ch ∈ studentChars) ∧
      ∃ c0 rest, code = c0 :: rest ∧ specRegexLetterClass c0 = true) := by
  refine ⟨?_, ?_, ?_⟩
  · intro lenSel bytes
    refine ⟨?_, ?_, ?_⟩
    · rw [generateDeviceCode, generateSecureRandom_length]; omega
    · rw [generateDeviceCode, generateSecureRandom_length]; omega
    · intro ch hch
      have hmem : ch ∈ defaultCharset := mem_generateSecureRandom (by decide) hch
      refine ⟨hmem, ?_⟩
      have H : defaultCharset.all (fun c => specRegexCharClass c) = true := by decide
      exact List.all_eq_true.1 H ch hmem
  · intro ch hch
    have H : studentChars.all (fun c => specRegexCharClass c) = true := by decide
    exact List.all_eq_true.1 H ch hch
  · intro len rnd code h
    obtain ⟨h3, h6, hlen, hchars, hhead⟩ := generateStudentCode_ok_shape len rnd code h
    refine ⟨by omega, by omega, hchars, ?_⟩
    rcases code with _ | ⟨c0, rest⟩
    · simp at hlen; omega
    · refine ⟨c0, rest, rfl, ?_⟩
      rcases hhead c0 rest rfl with hl | ⟨hs, hnd⟩
      · have H : studentLetterChars.all (fun c => specRegexLetterClass c) = true := by
          decide
        exact List.all_eq_true.1 H c0 hl
      · have H : studentChars.all
            (fun c => decide ('0' ≤ c ∧ c ≤ '9') || specRegexLetterClass c) = true := by
          decide
        have := List.all_eq_true.1 H c0 hs
        rcases (by simpa using this :
            ('0' ≤ c0 ∧ c0 ≤ '9') ∨ specRegexLetterClass c0 = true) with hdig | hcl
        · exact absurd hdig hnd
        · exact hcl

/-- Witness for C4's student half at a concrete generation. -/
theorem code_format_regexes_witness :
    3 ≤ (['A', 'A', 'A', 'A'] : CharStr).length ∧
    (['A', 'A', 'A', 'A'] : CharStr).length ≤ 6 ∧
    (∀ ch ∈ (['A', 'A', 'A', 'A'] : CharStr), ch ∈ studentChars) ∧
    ∃ c0 rest, (['A', 'A', 'A', 'A'] : CharStr) = c0 :: rest ∧
      specRegexLetterClass c0 = true :=
  code_format_regexes.2.2 4 (fun _ => 0) ['A', 'A', 'A', 'A'] (by rfl)

/-- C2: `checkAccess` rule evaluation — no matching rule denies with
reason "No access rule defined"; a userType outside the rule's allowed set
denies; a populated permissions list missing a required permission denies;
an absent permissions list skips the permission check entirely; a
hub-scoped rule denies without a hub id; otherwise access is allowed
carrying the rule's complianceRequired flags.  ("No hub id" follows the
source's JS truthiness: `hubId` undefined or empty.) -/
theorem checkAccess_rule_evaluation :
    ∀ (ctx : AccessContext) (resource action : String),
      (findRule resource action = none →
        checkAccess ctx resource action =
          { allowed := false, reason := some "No access rule defined",
            complianceFlags := none }) ∧
      ∀ rule, findRule resource action = some rule →
        (ctx.userType ∉ rule.allowedUserTypes →
          (checkAccess ctx resource action).allowed = false) ∧
        (∀ ps, ctx.permissions = some ps →
          (∃ p ∈ rule.requiredPermissions, p ∉ ps) →
          (checkAccess ctx resource action).allowed = false) ∧
        (rule.requiresHubAccess = true → ctx.hubId = none →
          (checkAccess ctx resource action).allowed = false) ∧
        (ctx.userType ∈ rule.allowedUserTypes →
          (∀ ps, ctx.permissions = some ps → ∀ p ∈ rule.requiredPermissions, p ∈ ps) →
          ¬(rule.requiresHubAccess = true ∧ strTruthy ctx.hubId = false) →
          checkAccess ctx resource action =
            { allowed := true, reason := none,
              complianceFlags := rule.complianceRequired }) := by
  intro ctx resource action
  refine ⟨fun h => by simp [checkAccess, checkAccessBody, h], fun rule hr => ?_⟩
  refine ⟨?_, ?_, ?_, ?_⟩
  · intro hut
    simp [checkAccess, checkAccessBody, hr, hut]
  · rintro ps hps ⟨p, hp, hnp⟩
    by_cases hut : ctx.userType ∈ rule.allowedUserTypes
    · have hlen : 0 < rule.requiredPermissions.length :=
        List.length_pos.2 (List.ne_nil_of_mem hp)
      have hex : ∃ x ∈ rule.requiredPermissions, x ∉ ps := ⟨p, hp, hnp⟩
      simp [checkAccess, checkAccessBody, hr, hps, hut, hlen, hex]
    · simp [checkAccess, checkAccessBody, hr, hut]
  · intro hreq hnone
    by_cases hut : ctx.userType ∈ rule.allowedUserTypes
    · cases hps : ctx.permissions with
      | none =>
        simp [checkAccess, checkAccessBody, hr, hut, hps, checkAccessHub, hreq,
          hnone, strTruthy]
      | some ps =>
        by_cases hpc : 0 < rule.requiredPermissions.length ∧
            ∃ x ∈ rule.requiredPermissions, x ∉ ps
        · simp [checkAccess, checkAccessBody, hr, hut, hps, hpc]
        · simp [checkAccess, checkAccessBody, hr, hut, hps, hpc, checkAccessHub,
            hreq, hnone, strTruthy]
    · simp [checkAccess, checkAccessBody, hr, hut]
  · intro hut hperm hhub
    cases hps : ctx.permissions with
    | none =>
      simp [checkAccess, checkAccessBody, hr, hut, hps, checkAccessHub, hhub]
    | some ps =>
      have hall : ∀ p ∈ rule.requiredPermissions, p ∈ ps := hperm ps hps
      have hnex : ¬(0 < rule.requiredPermissions.length ∧
          ∃ x ∈ rule.requiredPermissions, x ∉ ps) := by
        rintro ⟨-, x, hx, hnx⟩
        exact hnx (hall x hx)
      simp [checkAccess, checkAccessBody, hr, hut, hps, hnex, checkAccessHub, hhub]

/-- Witness for C2 at the spec's fail-closed scenario: an unknown
resource/action pair is denied with "No access rule defined". -/
theorem checkAccess_rule_evaluation_witness :
    checkAccess { userType := "admin" } "unknown-resource" "unknown-action" =
      { allowed := false, reason := some "No access rule defined",
        complianceFlags := none } :=
  (checkAccess_rule_evaluation { userType := "admin" }
    "unknown-resource" "unknown-action").1 (by rfl)

/-- C9: once the request passes access control (and, for create, the hub
lookup; for update, the student lookup), any provided age outside [3, 18]
makes `createStudent` / `updateStudent` fail with
BadRequestException "Student age must be between 3 and 18"; the pipeline
aborts before any record is built or saved (the `.error` result carries no
created/updated record). -/
theorem student_age_upper_bound_guard :
    ∀ (ctx : AccessContext) (hubId : String) (a : Int) (cnt : Nat)
      (cg : Except SvcError String) (flags : List String)
      (studentHubId : String) (fields : List String),
      a < 3 ∨ a > 18 →
      (enforceAccess { ctx with hubId := some hubId } "student" "create" =
          .ok flags →
        createStudent ctx hubId true (some a) cnt cg =
          .error (.badRequest ageRangeMsg)) ∧
      (enforceAccess { ctx with hubId := some studentHubId } "student" "update" =
          .ok flags →
        updateStudent ctx true studentHubId (some a) fields =
          .error (.badRequest ageRangeMsg)) := by
  intro ctx hubId a cnt cg flags studentHubId fields hage
  constructor
  · intro henf
    simp [createStudent, henf, hage, Bind.bind, Except.bind, Pure.pure, Except.pure]
  · intro henf
    simp [updateStudent, henf, hage, Bind.bind, Except.bind, Pure.pure, Except.pure]

/-- Witness for C9: a system-context create/update with age 19 is rejected
by the age guard. -/
theorem student_age_upper_bound_guard_witness :
    createStudent { userType := "system" } "h1" true (some 19) 0 (.ok "X") =
      .error (.badRequest ageRangeMsg) ∧
    updateStudent { userType := "system" } true "h1" (some 19) [] =
      .error (.badRequest ageRangeMsg) :=
  ⟨(student_age_upper_bound_guard { userType := "system" } "h1" 19 0 (.ok "X")
      ["COPPA", "GDPR"] "h1" [] (by omega)).1 (by rfl),
   (student_age_upper_bound_guard { userType := "system" } "h1" 19 0 (.ok "X")
      ["COPPA", "GDPR"] "h1" [] (by omega)).2 (by rfl)⟩

/-! ### Token-format lemmas -/

/-- An element that fails the predicate survives `dropWhile`. -/
theorem mem_dropWhile_of_not {α} (p : α → Bool) (c : α) :
    ∀ (s : List α), c ∈ s → p c = false → c ∈ s.dropWhile p := by
  intro s
  induction s with
  | nil => simp
  | cons a t ih =>
    intro hc hpc
    rw [List.dropWhile_cons]
    split
    case isTrue hpa =>
      rcases List.mem_cons.1 hc with rfl | h
      · rw [hpa] at hpc; cases hpc
      · exact ih h hpc
    case isFalse hpa => exact hc

/-- A string containing a non-whitespace character is not blank. -/
theorem jsBlank_false_of_mem {c : Char} {s : CharStr} (hc : c ∈ s)
    (hns : isJsSpace c = false) : jsBlank s = false := by
  have h1 : c ∈ s.dropWhile isJsSpace := mem_dropWhile_of_not _ _ _ hc hns
  have h2 : c ∈ (s.dropWhile isJsSpace).reverse := List.mem_reverse.2 h1
  have h3 : c ∈ ((s.dropWhile isJsSpace).reverse).dropWhile isJsSpace :=
    mem_dropWhile_of_not _ _ _ h2 hns
  have h4 : c ∈ jsTrim s := List.mem_reverse.2 h3
  have h5 : s ≠ [] := by rintro rfl; cases hc
  have h6 : jsTrim s ≠ [] := by
    intro h; rw [h] at h4; cases h4
  simp [jsBlank, h5, h6]

/-- `splitCols` always returns at least one group. -/
theorem splitCols_ne_nil (s : CharStr) : splitCols s ≠ [] := by
  cases s with
  | nil => simp [splitCols]
  | cons c rest =>
    simp only [splitCols]
    rcases splitCols rest with _ | ⟨g, gs⟩
    · simp
    · by_cases hc : c = ':' <;> simp [hc]

/-- A colon-free string is a single group. -/
theorem splitCols_eq_single (s : CharStr) (h : ∀ ch ∈ s, ch ≠ ':') :
    splitCols s = [s] := by
  induction s with
  | nil => rfl
  | cons c rest ih =>
    have hc : c ≠ ':' := h c (by simp)
    have ih' : splitCols rest = [rest] := ih (fun ch hch => h ch (by simp [hch]))
    simp [splitCols, ih', hc]

/-- Splitting peels a colon-free prefix before a colon. -/
theorem splitCols_append_colon (a rest : CharStr) (ha : ∀ ch ∈ a, ch ≠ ':') :
    splitCols (a ++ ':' :: rest) = a :: splitCols rest := by
  induction a with
  | nil =>
    simp only [List.nil_append, splitCols]
    rcases h : splitCols rest with _ | ⟨g, gs⟩
    · exact absurd h (splitCols_ne_nil rest)
    · simp
  | cons c a' ih =>
    have hc : c ≠ ':' := ha c (by simp)
    have ih' := ih (fun ch hch => ha ch (by simp [hch]))
    simp only [List.cons_append, splitCols, List.append_eq]
    rw [ih']
    simp [hc]

/-- A token built from three colon-free segments splits into exactly those
segments. -/
theorem splitCols_triple (a b d : CharStr)
    (ha : ∀ ch ∈ a, ch ≠ ':') (hb : ∀ ch ∈ b, ch ≠ ':')
    (hd : ∀ ch ∈ d, ch ≠ ':') :
    splitCols (a ++ ':' :: (b ++ ':' :: d)) = [a, b, d] := by
  rw [splitCols_append_colon a _ ha, splitCols_append_colon b _ hb,
    splitCols_eq_single d hd]

/-- Hex digits of nibbles lie in the hex alphabet. -/
theorem hexDig_mem {n : Nat} (h : n < 16) : hexDig n ∈ hexDigits := by
  interval_cases n <;> decide

/-- `hexVal?` inverts `hexDig` on nibbles. -/
theorem hexVal?_hexDig {n : Nat} (h : n < 16) : hexVal? (hexDig n) = some n := by
  interval_cases n <;> decide

/-- Unfolding of `toHex` on a byte. -/
theorem toHex_cons (b : Nat) (bs : List Nat) :
    toHex (b :: bs) = hexDig (b % 256 / 16) :: hexDig (b % 16) :: toHex bs := rfl

/-- `toHex` produces two characters per byte. -/
theorem toHex_length (bs : List Nat) : (toHex bs).length = 2 * bs.length := by
  induction bs with
  | nil => rfl
  | cons b t ih => rw [toHex_cons]; simp [ih]; omega

/-- Every character of a hex rendering is a hex digit. -/
theorem mem_toHex_hexDigits {ch : Char} {bs : List Nat} (h : ch ∈ toHex bs) :
    ch ∈ hexDigits := by
  rcases List.mem_flatMap.1 h with ⟨b, _, hmem⟩
  have h16a : b % 256 / 16 < 16 := by omega
  have h16b : b % 16 < 16 := Nat.mod_lt _ (by norm_num)
  simp only [List.mem_cons, List.not_mem_nil, or_false] at hmem
  rcases hmem with rfl | rfl
  · exact hexDig_mem h16a
  · exact hexDig_mem h16b

/-- Hex digits are not colons. -/
theorem toHex_no_colon {ch : Char} {bs : List Nat} (h : ch ∈ toHex bs) :
    ch ≠ ':' := by
  rintro rfl
  exact absurd (mem_toHex_hexDigits h) (by decide)

/-- `fromHex` inverts `toHex` on byte lists. -/
theorem fromHex_toHex (bs : List Nat) (hb : ∀ b ∈ bs, b < 256) :
    fromHex (toHex bs) = bs := by
  induction bs with
  | nil => rfl
  | cons b t ih =>
    have hb256 : b < 256 := hb b (by simp)
    have h1 : b % 256 = b := Nat.mod_eq_of_lt hb256
    have hhi : b / 16 < 16 := by omega
    have hlo : b % 16 < 16 := Nat.mod_lt _ (by norm_num)
    rw [toHex_cons, h1]
    simp only [fromHex, hexVal?_hexDig hhi, hexVal?_hexDig hlo]
    rw [ih (fun x hx => hb x (by simp [hx]))]
    congr 1
    omega

/-- `decrypt` on a well-formed three-segment token reduces to the AEAD
decryption of its decoded parts. -/
theorem decrypt_triple (c : GCMCipher) (a b d : CharStr)
    (ha : ∀ ch ∈ a, ch ≠ ':') (hb : ∀ ch ∈ b, ch ≠ ':')
    (hd : ∀ ch ∈ d, ch ≠ ':') :
    decrypt c (a ++ ':' :: (b ++ ':' :: d)) =
      match c.dec (fromHex a) (fromHex b) (fromHex d) with
      | some plain => .ok plain
      | none => .error failDecryptMsg := by
  have hcolon : (':' : Char) ∈ a ++ ':' :: (b ++ ':' :: d) :=
    List.mem_append.2 (Or.inr (by simp))
  have hblank : jsBlank (a ++ ':' :: (b ++ ':' :: d)) = false :=
    jsBlank_false_of_mem hcolon (by decide)
  have hsplit := splitCols_triple a b d ha hb hd
  simp [decrypt, hblank, hsplit]

/-- C1: round-trip — for any AEAD collaborator that inverts itself on the
given IV and plaintext, a non-blank plaintext survives
`decrypt(encrypt(s))` exactly; blank input passes through both functions
unchanged and unencrypted. -/
theorem encrypt_decrypt_roundtrip (c : GCMCipher) (iv : List Nat) (s : CharStr)
    (hiv : ∀ b ∈ iv, b < 256)
    (htag : ∀ b ∈ (c.enc iv s).2, b < 256)
    (hct : ∀ b ∈ (c.enc iv s).1, b < 256)
    (hdec : c.dec iv (c.enc iv s).2 (c.enc iv s).1 = some s) :
    (jsBlank s = false → decrypt c (encrypt c iv s) = .ok s) ∧
    (jsBlank s = true → encrypt c iv s = s ∧ decrypt c s = .ok s) := by
  constructor
  · intro hs
    have henc : encrypt c iv s =
        toHex iv ++ ':' :: (toHex (c.enc iv s).2 ++ ':' :: toHex (c.enc iv s).1) := by
      simp [encrypt, hs]
    rw [henc, decrypt_triple c _ _ _
      (fun ch hch => toHex_no_colon hch)
      (fun ch hch => toHex_no_colon hch)
      (fun ch hch => toHex_no_colon hch)]
    rw [fromHex_toHex iv hiv, fromHex_toHex _ htag, fromHex_toHex _ hct, hdec]
  · intro hs
    refine ⟨by simp [encrypt, hs], by simp [decrypt, hs]⟩

/-- Witness for C1 with the toy AEAD at a concrete plaintext. -/
theorem encrypt_decrypt_roundtrip_witness :
    decrypt toyCipher (encrypt toyCipher [7] ['h', 'i']) = .ok ['h', 'i'] :=
  (encrypt_decrypt_roundtrip toyCipher [7] ['h', 'i']
    (by decide) (by decide) (by decide) (by rfl)).1 (by rfl)

/-- Hex digits are not the separator. -/
theorem hex_ne_colon {ch : Char} (h : ch ∈ hexDigits) : ch ≠ ':' := by
  rintro rfl
  exact absurd h (by decide)

/-- Locating a marked position against a separator decomposition: if
`pre ++ x :: post` equals `u ++ sep :: w` and `x` is not the separator,
the marked position lies inside `u` or inside `w`. -/
theorem cons_point_split {α : Type} :
    ∀ (pre u post w : List α) (x sep : α),
      x ≠ sep →
      pre ++ x :: post = u ++ sep :: w →
      (∃ u2, u = pre ++ x :: u2 ∧ post = u2 ++ sep :: w) ∨
      (∃ p2, pre = u ++ sep :: p2 ∧ w = p2 ++ x :: post) := by
  intro pre
  induction pre with
  | nil =>
    intro u post w x sep hx heq
    rw [List.nil_append] at heq
    cases u with
    | nil =>
      rw [List.nil_append] at heq
      exact absurd (List.cons_eq_cons.1 heq).1 hx
    | cons c u' =>
      rw [List.cons_append] at heq
      rcases List.cons_eq_cons.1 heq with ⟨rfl, h2⟩
      exact Or.inl ⟨u', by rw [List.nil_append], h2⟩
  | cons p pre' ih =>
    intro u post w x sep hx heq
    cases u with
    | nil =>
      rw [List.nil_append, List.cons_append] at heq
      rcases List.cons_eq_cons.1 heq with ⟨rfl, h2⟩
      exact Or.inr ⟨pre', by rw [List.nil_append], h2.symm⟩
    | cons c u' =>
      rw [List.cons_append, List.cons_append] at heq
      rcases List.cons_eq_cons.1 heq with ⟨rfl, h2⟩
      rcases ih u' post w x sep hx h2 with ⟨u2, hu, hpost⟩ | ⟨p2, hpre, hw⟩
      · exact Or.inl ⟨u2, by rw [List.cons_append, hu], hpost⟩
      · exact Or.inr ⟨p2, by rw [List.cons_append, hpre], hw⟩

/-- Every hex digit has a value below 16. -/
theorem hexVal?_some_lt {c : Char} (h : c ∈ hexDigits) :
    ∃ v, hexVal? c = some v ∧ v < 16 := by
  have H : hexDigits.all
      (fun a => match hexVal? a with
        | some v => decide (v < 16)
        | none => false) = true := by decide
  have hc := List.all_eq_true.1 H c h
  rcases hv : hexVal? c with _ | v
  · rw [hv] at hc
    simp at hc
  · refine ⟨v, rfl, ?_⟩
    rw [hv] at hc
    simpa using hc

/-- `hexVal?` is injective on the hex alphabet. -/
theorem hexVal?_inj {c1 c2 : Char} (h1 : c1 ∈ hexDigits) (h2 : c2 ∈ hexDigits)
    (he : hexVal? c1 = hexVal? c2) : c1 = c2 := by
  have H : hexDigits.all (fun a => hexDigits.all
      (fun b => (a == b) || !(hexVal? a == hexVal? b))) = true := by decide
  have hb := List.all_eq_true.1 (List.all_eq_true.1 H c1 h1) c2 h2
  have heb : (hexVal? c1 == hexVal? c2) = true := beq_iff_eq.2 he
  rw [heb] at hb
  simpa using hb

/-- Flipping the leading hex digit changes the decoded bytes (the string
after the flip position has odd length, so the flipped digit is a high
nibble of a complete pair). -/
theorem fromHex_flip_ne_nil (a2 : CharStr) (x y : Char)
    (hx : x ∈ hexDigits) (hy : y ∈ hexDigits) (hxy : y ≠ x)
    (h2 : ∀ ch ∈ a2, ch ∈ hexDigits)
    (hev : (1 + a2.length) % 2 = 0) :
    fromHex (y :: a2) ≠ fromHex (x :: a2) := by
  cases a2 with
  | nil => simp at hev
  | cons lo rest =>
    have hlo : lo ∈ hexDigits := h2 lo (by simp)
    obtain ⟨vy, hvy, hvy16⟩ := hexVal?_some_lt hy
    obtain ⟨vx, hvx, hvx16⟩ := hexVal?_some_lt hx
    obtain ⟨vlo, hvlo, hvlo16⟩ := hexVal?_some_lt hlo
    simp only [fromHex, hvy, hvx, hvlo]
    intro heq
    have hh := (List.cons_eq_cons.1 heq).1
    have hv : vy = vx := by omega
    exact hxy (hexVal?_inj hy hx (by rw [hvy, hvx, hv]))

/-- Flipping a low nibble changes the decoded bytes. -/
theorem fromHex_flip_ne_single (h0 : Char) (a2 : CharStr) (x y : Char)
    (hh0 : h0 ∈ hexDigits) (hx : x ∈ hexDigits) (hy : y ∈ hexDigits)
    (hxy : y ≠ x) :
    fromHex (h0 :: y :: a2) ≠ fromHex (h0 :: x :: a2) := by
  obtain ⟨v0, hv0, hv016⟩ := hexVal?_some_lt hh0
  obtain ⟨vy, hvy, hvy16⟩ := hexVal?_some_lt hy
  obtain ⟨vx, hvx, hvx16⟩ := hexVal?_some_lt hx
  simp only [fromHex, hv0, hvy, hvx]
  intro heq
  have hh := (List.cons_eq_cons.1 heq).1
  have hv : vy = vx := by omega
  exact hxy (hexVal?_inj hy hx (by rw [hvy, hvx, hv]))

/-- Flipping any hex digit of an even-length all-hex string changes its
decoded byte list (length-bounded induction two characters at a time). -/
theorem fromHex_flip_ne_aux :
    ∀ (n : Nat) (a1 a2 : CharStr) (x y : Char),
      a1.length ≤ n →
      x ∈ hexDigits → y ∈ hexDigits → y ≠ x →
      (∀ ch ∈ a1, ch ∈ hexDigits) → (∀ ch ∈ a2, ch ∈ hexDigits) →
      (a1.length + 1 + a2.length) % 2 = 0 →
      fromHex (a1 ++ y :: a2) ≠ fromHex (a1 ++ x :: a2) := by
  intro n
  induction n with
  | zero =>
    intro a1 a2 x y hlen hx hy hxy h1 h2 hev
    have ha1 : a1 = [] := List.length_eq_zero.1 (Nat.le_zero.1 hlen)
    subst ha1
    simpa using fromHex_flip_ne_nil a2 x y hx hy hxy h2 (by simpa using hev)
  | succ n ih =>
    intro a1 a2 x y hlen hx hy hxy h1 h2 hev
    cases a1 with
    | nil =>
      simpa using fromHex_flip_ne_nil a2 x y hx hy hxy h2 (by simpa using hev)
    | cons h0 t =>
      cases t with
      | nil =>
        simpa using fromHex_flip_ne_single h0 a2 x y (h1 h0 (by simp)) hx hy hxy
      | cons l0 t' =>
        have hh0 : h0 ∈ hexDigits := h1 h0 (by simp)
        have hl0 : l0 ∈ hexDigits := h1 l0 (by simp)
        obtain ⟨v0, hv0, _⟩ := hexVal?_some_lt hh0
        obtain ⟨v1, hv1, _⟩ := hexVal?_some_lt hl0
        have h1' : ∀ ch ∈ t', ch ∈ hexDigits := fun ch hch => h1 ch (by simp [hch])
        have hlen' : t'.length ≤ n := by
          simp only [List.length_cons] at hlen
          omega
        have hev' : (t'.length + 1 + a2.length) % 2 = 0 := by
          simp only [List.length_cons] at hev
          omega
        have ihx := ih t' a2 x y hlen' hx hy hxy h1' h2 hev'
        simp only [List.cons_append, fromHex, hv0, hv1]
        intro heq
        exact ihx (List.cons_eq_cons.1 heq).2

/-- Flip-injectivity of hex decoding, stated at the flip position. -/
theorem fromHex_flip_ne (a1 a2 : CharStr) (x y : Char)
    (hx : x ∈ hexDigits) (hy : y ∈ hexDigits) (hxy : y ≠ x)
    (h1 : ∀ ch ∈ a1, ch ∈ hexDigits) (h2 : ∀ ch ∈ a2, ch ∈ hexDigits)
    (hev : (a1.length + 1 + a2.length) % 2 = 0) :
    fromHex (a1 ++ y :: a2) ≠ fromHex (a1 ++ x :: a2) :=
  fromHex_flip_ne_aux a1.length a1 a2 x y le_rfl hx hy hxy h1 h2 hev

/-- C7: `decrypt` fails with the generic "Failed to decrypt data" exactly
when a non-blank token does not split into 3 colon-delimited segments or
the AEAD authentication rejects the decoded triple; and, for a
tamper-evident AEAD, flipping any single hex digit of a token produced by
`encrypt` makes `decrypt` fail rather than return a different plaintext. -/
theorem decrypt_error_exactly_and_tamper (c : GCMCipher) :
    (∀ t : CharStr, jsBlank t = false →
      (decrypt c t = .error failDecryptMsg ↔
        ¬ ∃ p0 p1 p2 plain, splitCols t = [p0, p1, p2] ∧
          c.dec (fromHex p0) (fromHex p1) (fromHex p2) = some plain)) ∧
    (∀ (iv : List Nat) (s : CharStr) (pre post : CharStr) (x y : Char),
      jsBlank s = false →
      (∀ b ∈ iv, b < 256) →
      (∀ b ∈ (c.enc iv s).2, b < 256) →
      (∀ b ∈ (c.enc iv s).1, b < 256) →
      encrypt c iv s = pre ++ x :: post →
      x ∈ hexDigits → y ∈ hexDigits → y ≠ x →
      (∀ iv' tag' ct',
        (iv', tag', ct') ≠ (iv, (c.enc iv s).2, (c.enc iv s).1) →
        c.dec iv' tag' ct' = none) →
      decrypt c (pre ++ y :: post) = .error failDecryptMsg) := by
  constructor
  · intro t ht
    unfold decrypt
    rw [if_neg (by simp [ht])]
    rcases hs : splitCols t with _ | ⟨p0, _ | ⟨p1, _ | ⟨p2, _ | ⟨p3, rest⟩⟩⟩⟩
    · exact absurd hs (splitCols_ne_nil t)
    · refine ⟨fun _ => ?_, fun _ => rfl⟩
      rintro ⟨q0, q1, q2, plain, hsp, -⟩
      simp at hsp
    · refine ⟨fun _ => ?_, fun _ => rfl⟩
      rintro ⟨q0, q1, q2, plain, hsp, -⟩
      simp at hsp
    · rcases hdec : c.dec (fromHex p0) (fromHex p1) (fromHex p2) with _ | plain
      · refine ⟨fun _ => ?_, fun _ => by simp [hdec]⟩
        rintro ⟨q0, q1, q2, plain, hsp, hde⟩
        simp only [List.cons_eq_cons] at hsp
        obtain ⟨rfl, rfl, rfl, -⟩ := hsp
        simp [hdec] at hde
      · refine ⟨fun h => ?_, fun hno => ?_⟩
        · exact absurd h (by simp [hdec])
        · exact absurd ⟨p0, p1, p2, plain, rfl, hdec⟩ hno
    · refine ⟨fun _ => ?_, fun _ => rfl⟩
      rintro ⟨q0, q1, q2, plain, hsp, -⟩
      simp at hsp
  · intro iv s pre post x y hs hiv htag hct heq hx hy hxy htamper
    have henc : encrypt c iv s =
        toHex iv ++ ':' :: (toHex (c.enc iv s).2 ++ ':' :: toHex (c.enc iv s).1) := by
      simp [encrypt, hs]
    rw [henc] at heq
    have hxc : x ≠ ':' := hex_ne_colon hx
    rcases cons_point_split pre (toHex iv) post
        (toHex (c.enc iv s).2 ++ ':' :: toHex (c.enc iv s).1) x ':' hxc heq.symm with
      ⟨u2, hu, hpost⟩ | ⟨p2, hpre, hw⟩
    · -- the flip lands in the IV segment
      have hmem_pre : ∀ ch ∈ pre, ch ∈ hexDigits := fun ch hch =>
        mem_toHex_hexDigits (by rw [hu]; exact List.mem_append.2 (Or.inl hch))
      have hmem_u2 : ∀ ch ∈ u2, ch ∈ hexDigits := fun ch hch =>
        mem_toHex_hexDigits (by rw [hu]; simp [hch])
      have hA : ∀ ch ∈ pre ++ y :: u2, ch ≠ ':' := by
        intro ch hch
        rcases List.mem_append.1 hch with h' | h'
        · exact hex_ne_colon (hmem_pre ch h')
        · rcases List.mem_cons.1 h' with rfl | h''
          · exact hex_ne_colon hy
          · exact hex_ne_colon (hmem_u2 ch h'')
      have hform : pre ++ y :: post =
          (pre ++ y :: u2) ++ ':' ::
            (toHex (c.enc iv s).2 ++ ':' :: toHex (c.enc iv s).1) := by
        rw [hpost]
        simp
      have htr := decrypt_triple c (pre ++ y :: u2) (toHex (c.enc iv s).2)
        (toHex (c.enc iv s).1) hA (fun ch hch => toHex_no_colon hch)
        (fun ch hch => toHex_no_colon hch)
      have hparity : (pre.length + 1 + u2.length) % 2 = 0 := by
        have hle := congrArg List.length hu
        rw [toHex_length] at hle
        simp at hle
        omega
      have hne : fromHex (pre ++ y :: u2) ≠ iv := by
        have h1 := fromHex_flip_ne pre u2 x y hx hy hxy hmem_pre hmem_u2 hparity
        intro hcontra
        exact h1 (by rw [hcontra, ← hu, fromHex_toHex iv hiv])
      have hdecnone : c.dec (fromHex (pre ++ y :: u2))
          (fromHex (toHex (c.enc iv s).2)) (fromHex (toHex (c.enc iv s).1)) = none := by
        rw [fromHex_toHex _ htag, fromHex_toHex _ hct]
        apply htamper
        intro hcontra
        exact hne (congrArg Prod.fst hcontra)
      rw [hform, htr, hdecnone]
    · -- the flip lands after the first colon
      rcases cons_point_split p2 (toHex (c.enc iv s).2) post (toHex (c.enc iv s).1)
          x ':' hxc hw.symm with ⟨u2, hu, hpost⟩ | ⟨p3, hp2, hw2⟩
      · -- in the auth-tag segment
        have hmem_p2 : ∀ ch ∈ p2, ch ∈ hexDigits := fun ch hch =>
          mem_toHex_hexDigits (by rw [hu]; exact List.mem_append.2 (Or.inl hch))
        have hmem_u2 : ∀ ch ∈ u2, ch ∈ hexDigits := fun ch hch =>
          mem_toHex_hexDigits (by rw [hu]; simp [hch])
        have hB : ∀ ch ∈ p2 ++ y :: u2, ch ≠ ':' := by
          intro ch hch
          rcases List.mem_append.1 hch with h' | h'
          · exact hex_ne_colon (hmem_p2 ch h')
          · rcases List.mem_cons.1 h' with rfl | h''
            · exact hex_ne_colon hy
            · exact hex_ne_colon (hmem_u2 ch h'')
        have hform : pre ++ y :: post =
            toHex iv ++ ':' ::
              ((p2 ++ y :: u2) ++ ':' :: toHex (c.enc iv s).1) := by
          rw [hpre, hpost]
          simp
        have htr := decrypt_triple c (toHex iv) (p2 ++ y :: u2)
          (toHex (c.enc iv s).1) (fun ch hch => toHex_no_colon hch) hB
          (fun ch hch => toHex_no_colon hch)
        have hparity : (p2.length + 1 + u2.length) % 2 = 0 := by
          have hle := congrArg List.length hu
          rw [toHex_length] at hle
          simp at hle
          omega
        have hne : fromHex (p2 ++ y :: u2) ≠ (c.enc iv s).2 := by
          have h1 := fromHex_flip_ne p2 u2 x y hx hy hxy hmem_p2 hmem_u2 hparity
          intro hcontra
          exact h1 (by rw [hcontra, ← hu, fromHex_toHex _ htag])
        have hdecnone : c.dec (fromHex (toHex iv)) (fromHex (p2 ++ y :: u2))
            (fromHex (toHex (c.enc iv s).1)) = none := by
          rw [fromHex_toHex iv hiv, fromHex_toHex _ hct]
          apply htamper
          intro hcontra
          exact hne (congrArg (fun z => z.2.1) hcontra)
        rw [hform, htr, hdecnone]
      · -- in the ciphertext segment
        have hmem_p3 : ∀ ch ∈ p3, ch ∈ hexDigits := fun ch hch =>
          mem_toHex_hexDigits (by rw [hw2]; exact List.mem_append.2 (Or.inl hch))
        have hmem_post : ∀ ch ∈ post, ch ∈ hexDigits := fun ch hch =>
          mem_toHex_hexDigits (by rw [hw2]; simp [hch])
        have hD : ∀ ch ∈ p3 ++ y :: post, ch ≠ ':' := by
          intro ch hch
          rcases List.mem_append.1 hch with h' | h'
          · exact hex_ne_colon (hmem_p3 ch h')
          · rcases List.mem_cons.1 h' with rfl | h''
            · exact hex_ne_colon hy
            · exact hex_ne_colon (hmem_post ch h'')
        have hform : pre ++ y :: post =
            toHex iv ++ ':' ::
              (toHex (c.enc iv s).2 ++ ':' :: (p3 ++ y :: post)) := by
          rw [hpre, hp2]
          simp
        have htr := decrypt_triple c (toHex iv) (toHex (c.enc iv s).2)
          (p3 ++ y :: post) (fun ch hch => toHex_no_colon hch)
          (fun ch hch => toHex_no_colon hch) hD
        have hparity : (p3.length + 1 + post.length) % 2 = 0 := by
          have hle := congrArg List.length hw2
          rw [toHex_length] at hle
          simp at hle
          omega
        have hne : fromHex (p3 ++ y :: post) ≠ (c.enc iv s).1 := by
          have h1 := fromHex_flip_ne p3 post x y hx hy hxy hmem_p3 hmem_post hparity
          intro hcontra
          exact h1 (by rw [hcontra, ← hw2, fromHex_toHex _ hct])
        have hdecnone : c.dec (fromHex (toHex iv))
            (fromHex (toHex (c.enc iv s).2)) (fromHex (p3 ++ y :: post)) = none := by
          rw [fromHex_toHex iv hiv, fromHex_toHex _ htag]
          apply htamper
          intro hcontra
          exact hne (congrArg (fun z => z.2.2) hcontra)
        rw [hform, htr, hdecnone]

/-- Witness for C7 with the single-point AEAD: flipping the last hex digit
of the concrete token 00:01:02 makes decryption fail. -/
theorem decrypt_error_exactly_and_tamper_witness :
    decrypt pointCipher ['0', '0', ':', '0', '1', ':', '0', '3'] =
      .error failDecryptMsg :=
  (decrypt_error_exactly_and_tamper pointCipher).2 [0] ['A']
    ['0', '0', ':', '0', '1', ':', '0'] [] '2' '3'
    (by decide) (by decide) (by decide) (by decide) (by decide)
    (by decide) (by decide) (by decide)
    (fun iv' tag' ct' hne => by
      simp only [pointCipher]
      rw [if_neg]
      rintro ⟨rfl, rfl, rfl⟩
      exact hne rfl)

end Hiqma
